import Mathlib

/-!
Verification development for the af-gps-binding NMEA GPS binding
(`src/af-gps-binding.c`).

Embedding conventions:
* C strings are embedded as `List Nat` of byte values; the terminating NUL is
  not stored, and `cAt s i` models `s[i]` of a NUL-terminated string (reads
  past the end yield 0, true for byte lists that contain no 0).
* C `double` values are embedded as exact rationals `ℚ`; numeric literals of
  the source are taken at their exact decimal value (IEEE rounding of literals
  and of arithmetic is not modelled; none of the proved properties depends on
  it).
* `atof` of libc is modelled for plain decimal inputs (optional sign, digits,
  optional fraction; no exponent, no leading whitespace), which covers every
  NMEA field shape the binding feeds to it.
* Machine integers: `uint32_t` subtraction is modelled explicitly modulo
  `2 ^ 32` (`sub32`), the event-id `int` wraps via `wrap32`.
* Loops whose termination is in question are given an explicit fuel
  parameter; `none` for every fuel models non-termination of the C loop.
-/

namespace AfGps

/-- Byte-list view of a Lean string literal (used to write concrete inputs). -/
def str (s : String) : List Nat := s.data.map Char.toNat

/-- `cAt s i` models indexing a NUL-terminated C string: reads past the end
of the stored bytes return the terminator 0. -/
def cAt (s : List Nat) (i : Nat) : Nat := s.getD i 0

/-- Digit test, `'0' ≤ c ≤ '9'` on byte values. -/
def isDig (c : Nat) : Bool := 48 ≤ c && c ≤ 57

/-- Numeric value of a digit list, most significant first. -/
def digitsToNat (ds : List Nat) : Nat := ds.foldl (fun a d => a * 10 + (d - 48)) 0

/-- Model of libc `atof` restricted to plain decimal numerals
(optional `+`/`-` sign, integer digits, optional `.` and fraction digits;
conversion stops at the first character that does not fit, as `atof` does).
Exponents and leading whitespace, never present in NMEA fields, are not
modelled. -/
def atofQ (s : List Nat) : ℚ :=
  let (sgn, s1) : ℚ × List Nat :=
    match s with
    | 43 :: r => (1, r)
    | 45 :: r => (-1, r)
    | _ => (1, s)
  let ip := s1.takeWhile isDig
  let s2 := s1.dropWhile isDig
  let frac : ℚ :=
    match s2 with
    | 46 :: r =>
      let fp := r.takeWhile isDig
      (digitsToNat fp : ℚ) / ((10 : ℚ) ^ fp.length)
    | _ => 0
  sgn * ((digitsToNat ip : ℚ) + frac)

/-! ## Field decoder: `nmea_time` (lines 426-467) -/

/-- Embedding of `nmea_time`: validates `HHMMSS[.dddd]` digit by digit and
returns the millisecond-of-day value, mirroring the C control flow exactly
(including the unchecked characters after a fourth fraction digit and the
round-up condition `text[10] > '5'`). -/
def nmea_time (text : List Nat) : Option Nat :=
  let c := cAt text
  if c 0 < 48 ∨ c 0 > 50
   ∨ c 1 < 48 ∨ c 1 > (if c 0 = 50 then 51 else 57)
   ∨ c 2 < 48 ∨ c 2 > 53
   ∨ c 3 < 48 ∨ c 3 > 57
   ∨ c 4 < 48 ∨ c 4 > 53
   ∨ c 5 < 48 ∨ c 5 > 57
   ∨ (c 6 ≠ 0 ∧ c 6 ≠ 46) then none
  else
    let x := c 0 - 48
    let x := x * 10 + (c 1 - 48)
    let x := x * 6 + (c 2 - 48)
    let x := x * 10 + (c 3 - 48)
    let x := x * 6 + (c 4 - 48)
    let x := x * 10 + (c 5 - 48)
    let x := x * 1000
    if c 6 = 46 then
      if c 7 ≠ 0 then
        if c 7 < 48 ∨ c 7 > 57 then none
        else
          let x := x + (c 7 - 48) * 100
          if c 8 ≠ 0 then
            if c 8 < 48 ∨ c 8 > 57 then none
            else
              let x := x + (c 8 - 48) * 10
              if c 9 ≠ 0 then
                if c 9 < 48 ∨ c 9 > 57 then none
                else
                  let x := x + (c 9 - 48)
                  if c 10 ≠ 0 then
                    if c 10 < 48 ∨ c 10 > 57 then none
                    else some (x + if c 10 > 53 then 1 else 0)
                  else some x
              else some x
          else some x
      else some x
    else some x

/-- Specification-level reading of the time decoder, written over the list
structure with numeric range checks (hour ≤ 23, minute ≤ 59, second ≤ 59):
six digits, then optionally `'.'` and up to three fraction digits, or four
fraction digits after which the remaining characters are ignored and the
value is rounded up exactly when the fourth fraction digit exceeds `'5'`. -/
def timeSpec (s : List Nat) : Option Nat :=
  match s with
  | b0 :: b1 :: b2 :: b3 :: b4 :: b5 :: rest =>
    if isDig b0 ∧ isDig b1 ∧ isDig b2 ∧ isDig b3 ∧ isDig b4 ∧ isDig b5
        ∧ 10 * (b0 - 48) + (b1 - 48) ≤ 23
        ∧ 10 * (b2 - 48) + (b3 - 48) ≤ 59
        ∧ 10 * (b4 - 48) + (b5 - 48) ≤ 59 then
      let base := (3600 * (10 * (b0 - 48) + (b1 - 48))
                 + 60 * (10 * (b2 - 48) + (b3 - 48))
                 + (10 * (b4 - 48) + (b5 - 48))) * 1000
      match rest with
      | [] => some base
      | 46 :: fr =>
        match fr with
        | [] => some base
        | [e1] => if isDig e1 then some (base + (e1 - 48) * 100) else none
        | [e1, e2] =>
          if isDig e1 ∧ isDig e2 then some (base + (e1 - 48) * 100 + (e2 - 48) * 10) else none
        | [e1, e2, e3] =>
          if isDig e1 ∧ isDig e2 ∧ isDig e3 then
            some (base + (e1 - 48) * 100 + (e2 - 48) * 10 + (e3 - 48))
          else none
        | e1 :: e2 :: e3 :: e4 :: _ =>
          if isDig e1 ∧ isDig e2 ∧ isDig e3 ∧ isDig e4 then
            some (base + (e1 - 48) * 100 + (e2 - 48) * 10 + (e3 - 48)
                  + if e4 > 53 then 1 else 0)
          else none
      | _ => none
    else none
  | _ => none

/-- The shape claimed by the specification for accepted time fields: six
digits `HHMMSS` in range, optionally followed by `'.'` and at most four more
digits (no further characters). -/
def claimTimeShape (s : List Nat) : Bool :=
  match s with
  | b0 :: b1 :: b2 :: b3 :: b4 :: b5 :: rest =>
    isDig b0 && isDig b1 && isDig b2 && isDig b3 && isDig b4 && isDig b5
      && decide (10 * (b0 - 48) + (b1 - 48) ≤ 23)
      && decide (10 * (b2 - 48) + (b3 - 48) ≤ 59)
      && decide (10 * (b4 - 48) + (b5 - 48) ≤ 59)
      && (match rest with
          | [] => true
          | 46 :: fr => decide (fr.length ≤ 4) && fr.all isDig
          | _ => false)
  | _ => false

/-! ## Sentence parser and field decoders (`nmea_angle`, `nmea_set`,
`nmea_split`, `nmea_gga`, `nmea_rmc`, `nmea_sentence`, lines 469-652) -/

/-- `KNOT_TO_METER_PER_SECOND` (the source literal `0.5144444444`). -/
def KNOT_TO_METER_PER_SECOND : ℚ := 5144444444 / 10 ^ 10

/-- The source literal `0.01666666666666666666666` (≈ 1/60) used by
`nmea_angle`. -/
def MIN_PER_DEG : ℚ := 1666666666666666666666 / 10 ^ 23

/-- Embedding of `nmea_angle`: `dotidx` is the index of the first `'.'`
(or the length, as `strchrnul`); the switch with fall-through accumulates the
digits before the final two pre-dot positions into `x` and parses the rest
with `atof`, returning `x + v * 0.01666666666666666666666`. -/
def nmea_angle (text : List Nat) : Option ℚ :=
  let d := (text.takeWhile (· ≠ 46)).length
  match d with
  | 0 => some ((0 : ℚ) + atofQ text * MIN_PER_DEG)
  | 1 =>
    if isDig (cAt text 0) then some ((0 : ℚ) + atofQ text * MIN_PER_DEG) else none
  | 2 => some ((0 : ℚ) + atofQ text * MIN_PER_DEG)
  | 3 =>
    if isDig (cAt text 0) then
      some (((cAt text 0 - 48 : Nat) : ℚ) + atofQ (text.drop 1) * MIN_PER_DEG)
    else none
  | 4 =>
    if isDig (cAt text 0) ∧ isDig (cAt text 1) then
      some ((((cAt text 0 - 48) * 10 + (cAt text 1 - 48) : Nat) : ℚ)
        + atofQ (text.drop 2) * MIN_PER_DEG)
    else none
  | 5 =>
    if isDig (cAt text 0) ∧ isDig (cAt text 1) ∧ isDig (cAt text 2) then
      some (((((cAt text 0 - 48) * 10 + (cAt text 1 - 48)) * 10 + (cAt text 2 - 48) : Nat) : ℚ)
        + atofQ (text.drop 3) * MIN_PER_DEG)
    else none
  | _ => none

/-- One decoded GPS sample.  In the C source unset value fields hold
indeterminate stack garbage; the embedding fixes them to 0, which no code
path ever reads (presence is tracked by the `set_*` flags). -/
structure Fix where
  set_time : Bool
  set_latitude : Bool
  set_longitude : Bool
  set_altitude : Bool
  set_speed : Bool
  set_track : Bool
  time : Nat
  latitude : ℚ
  longitude : ℚ
  altitude : ℚ
  speed : ℚ
  track : ℚ
deriving DecidableEq

/-- The default (all-absent) fix. -/
def fix0 : Fix :=
  ⟨false, false, false, false, false, false, 0, 0, 0, 0, 0, 0⟩

/-- Result of `nmea_set` before the frame push: the sentence is rejected
(C returns 0 with no side effect), or the C code reaches `atof(tra)` with
`tra == NULL` (undefined behaviour), or a fix is produced (C returns 1 after
pushing). -/
inductive SetR where
  | rejected
  | nullDeref
  | stored (g : Fix)
deriving DecidableEq

/-- The time block of `nmea_set` (lines 521-528): `none` result means the
sentence is rejected, otherwise presence flag and value. -/
def timePart (tim : Option (List Nat)) : Option (Bool × Nat) :=
  match tim with
  | none => some (false, 0)
  | some t =>
    match nmea_time t with
    | none => none
    | some v => some (true, v)

/-- The latitude block of `nmea_set` (lines 530-541): hemisphere must be
exactly `"N"` or `"S"`, and `'S'` negates the decoded angle. -/
def latPart (lat latu : Option (List Nat)) : Option (Bool × ℚ) :=
  match lat, latu with
  | some l, some u =>
    if (cAt u 0 ≠ 78 ∧ cAt u 0 ≠ 83) ∨ cAt u 1 ≠ 0 then none
    else
      match nmea_angle l with
      | none => none
      | some a => some (true, if cAt u 0 = 83 then -a else a)
  | _, _ => some (false, 0)

/-- The longitude block of `nmea_set` (lines 543-554): hemisphere must be
exactly `"E"` or `"W"`, and `'W'` stores `360 - angle`. -/
def lonPart (lon lonu : Option (List Nat)) : Option (Bool × ℚ) :=
  match lon, lonu with
  | some l, some u =>
    if (cAt u 0 ≠ 69 ∧ cAt u 0 ≠ 87) ∨ cAt u 1 ≠ 0 then none
    else
      match nmea_angle l with
      | none => none
      | some a => some (true, if cAt u 0 = 87 then 360 - a else a)
  | _, _ => some (false, 0)

/-- The altitude block of `nmea_set` (lines 556-564): unit must be exactly
`"M"`. -/
def altPart (alt altu : Option (List Nat)) : Option (Bool × ℚ) :=
  match alt, altu with
  | some al, some au =>
    if cAt au 0 ≠ 77 ∨ cAt au 1 ≠ 0 then none
    else some (true, atofQ al)
  | _, _ => some (false, 0)

/-- The speed block of `nmea_set` (lines 566-572): knots converted to m/s. -/
def spePart (spe : Option (List Nat)) : Bool × ℚ :=
  match spe with
  | none => (false, 0)
  | some sp => (true, atofQ sp * KNOT_TO_METER_PER_SECOND)

/-- Embedding of `nmea_set` (lines 506-597) up to (but excluding) the frame
push.  `none` arguments model NULL pointers.  The track block reproduces the
source verbatim: `if (tra != NULL) gps.set.track = 0; else { gps.track =
atof(tra); gps.set.track = 1; }` — note the inverted null test, so a non-NULL
`tra` marks track absent and a NULL `tra` dereferences NULL
(`SetR.nullDeref`). -/
def nmea_set (tim lat latu lon lonu alt altu spe tra _dat : Option (List Nat)) : SetR :=
  match timePart tim with
  | none => .rejected
  | some (stime, vtime) =>
    match latPart lat latu with
    | none => .rejected
    | some (slat, vlat) =>
      match lonPart lon lonu with
      | none => .rejected
      | some (slon, vlon) =>
        match altPart alt altu with
        | none => .rejected
        | some (salt, valt) =>
          match tra with
          | some _ =>
            .stored { set_time := stime, time := vtime,
                      set_latitude := slat, latitude := vlat,
                      set_longitude := slon, longitude := vlon,
                      set_altitude := salt, altitude := valt,
                      set_speed := (spePart spe).1, speed := (spePart spe).2,
                      set_track := false, track := 0 }
          | none => .nullDeref

/-- Helper for `nmea_split`: consumes up to `n` more comma-separated fields
(the C loop `while (*s && index < count)`). -/
def splitGo : List Nat → Nat → List (List Nat) → Option (List (List Nat))
  | s, 0, acc => if s = [] then some acc.reverse else none
  | [], _ + 1, _ => none
  | s, n + 1, acc =>
    let f := s.takeWhile (· ≠ 44)
    let r := s.dropWhile (· ≠ 44)
    splitGo (if r = [] then [] else r.tail) n (f :: acc)

/-- Embedding of `nmea_split`: succeeds iff the text splits into exactly
`count` comma-separated fields with nothing left over. -/
def nmea_split (s : List Nat) (count : Nat) : Option (List (List Nat)) :=
  splitGo s count []

/-- Embedding of `nmea_gga` (lines 615-622): 14 fields, quality field must
not start with `'0'`, altitude fields passed, speed/track/date NULL. -/
def nmea_gga (s : List Nat) : SetR :=
  match nmea_split s 14 with
  | none => .rejected
  | some f =>
    if cAt (f.getD 5 []) 0 ≠ 48 then
      nmea_set (some (f.getD 0 [])) (some (f.getD 1 [])) (some (f.getD 2 []))
        (some (f.getD 3 [])) (some (f.getD 4 [])) (some (f.getD 6 []))
        (some (f.getD 7 [])) none none none
    else .rejected

/-- Embedding of `nmea_rmc` (lines 627-634): 12 fields, status field must
start with `'A'`, speed/track/date passed, altitude NULL. -/
def nmea_rmc (s : List Nat) : SetR :=
  match nmea_split s 12 with
  | none => .rejected
  | some f =>
    if cAt (f.getD 1 []) 0 = 65 then
      nmea_set (some (f.getD 0 [])) (some (f.getD 2 [])) (some (f.getD 3 []))
        (some (f.getD 4 [])) (some (f.getD 5 [])) none none
        (some (f.getD 6 [])) (some (f.getD 7 [])) (some (f.getD 8 []))
    else .rejected

/-- Embedding of `nmea_sentence` (lines 640-652): dispatch on the fixed-offset
tag `"GGA,"` / `"RMC,"` at positions 2-5. -/
def nmea_sentence (s : List Nat) : SetR :=
  if cAt s 0 = 0 ∨ cAt s 1 = 0 then .rejected
  else if cAt s 2 = 71 ∧ cAt s 3 = 71 ∧ cAt s 4 = 65 ∧ cAt s 5 = 44 then
    nmea_gga (s.drop 6)
  else if cAt s 2 = 82 ∧ cAt s 3 = 77 ∧ cAt s 4 = 67 ∧ cAt s 5 = 44 then
    nmea_rmc (s.drop 6)
  else .rejected

/-- Projection used to state the track bug: the presence flag of the stored
fix, if any. -/
def trackFlag : SetR → Option Bool
  | .stored g => some g.set_track
  | _ => none

/-! ## Fix buffer (`frames`/`frameidx`/`newframes`, lines 112-114 and
582-585) -/

/-- The rotating fix store: 10 frames, a backward-moving write cursor and the
new-frame generation counter. -/
structure FixBuf where
  frames : List Fix
  frameidx : Nat
  newframes : Nat
deriving DecidableEq

/-- The frame push of `nmea_set`
(`frameidx = (frameidx ?: 10) - 1; frames[frameidx] = gps; newframes++`). -/
def pushFrame (g : Fix) (b : FixBuf) : FixBuf :=
  let idx := (if b.frameidx = 0 then 10 else b.frameidx) - 1
  { frames := b.frames.set idx g, frameidx := idx, newframes := b.newframes + 1 }

/-- One ingested line: the buffer is updated exactly when `nmea_set` stores a
fix. -/
def processSentence (b : FixBuf) (s : List Nat) : FixBuf :=
  match nmea_sentence s with
  | .stored g => pushFrame g b
  | _ => b

/-! ## Position view cache (`position`, `new_dms`, lines 116-128 and 139-289) -/

/-- The four representation types (`enum type`). -/
inductive PosType where
  | wgs84
  | dms_kmh
  | dms_mph
  | dms_kn
deriving DecidableEq

/-- `type_NAMES`. -/
def typeName : PosType → String
  | .wgs84 => "WGS84"
  | .dms_kmh => "DMS.km/h"
  | .dms_mph => "DMS.mph"
  | .dms_kn => "DMS.kn"

/-- `METER_PER_SECOND_TO_KILOMETER_PER_HOUR` (source literal `3.6`). -/
def METER_PER_SECOND_TO_KILOMETER_PER_HOUR : ℚ := 36 / 10

/-- `METER_PER_SECOND_TO_MILE_PER_HOUR` (source literal `2.236936292`). -/
def METER_PER_SECOND_TO_MILE_PER_HOUR : ℚ := 2236936292 / 10 ^ 9

/-- `METER_PER_SECOND_TO_KNOT` (source literal `1.943844492`). -/
def METER_PER_SECOND_TO_KNOT : ℚ := 1943844492 / 10 ^ 9

/-- A cached JSON value: either a number or the
degree/minute/second/hemisphere quadruple that `new_dms` renders with
`sprintf` (the textual formatting is output serialization, external to the
core). -/
inductive JV where
  | num (q : ℚ)
  | dms (d : Int) (m : Int) (sec : ℚ) (hem : Nat)
deriving DecidableEq

/-- Embedding of `new_dms` (lines 139-165): hemisphere selection and
degree/minute/second decomposition. -/
def new_dms (a : ℚ) (islat : Bool) : JV :=
  let ap : ℚ × Nat :=
    if islat then (if a ≥ 0 then (a, 78) else (-a, 83))
    else (if a ≤ 180 then (a, 69) else (360 - a, 87))
  let D : Int := ⌊ap.1⌋
  let a2 : ℚ := (ap.1 - D) * 60
  let M : Int := ⌊a2⌋
  let a3 : ℚ := (a2 - M) * 60
  .dms D M a3 ap.2

/-- One built position view (the JSON object assembled by `position`):
optional members are present exactly when `addif` received a non-NULL
cached value. -/
structure View where
  vtype : String
  time : Option JV
  altitude : Option JV
  track : Option JV
  latitude : Option JV
  longitude : Option JV
  speed : Option JV
deriving DecidableEq

/-- The cache state of `position`: the fix buffer plus the eleven per-field
caches (lines 116-126) and the four per-type views (line 128). -/
structure PState where
  fb : FixBuf
  time_ms : Option JV
  latitude_wgs : Option JV
  longitude_wgs : Option JV
  latitude_dms : Option JV
  longitude_dms : Option JV
  altitude_m : Option JV
  speed_ms : Option JV
  speed_kmh : Option JV
  speed_mph : Option JV
  speed_kn : Option JV
  track_d : Option JV
  positions_wgs84 : Option View
  positions_dms_kmh : Option View
  positions_dms_mph : Option View
  positions_dms_kn : Option View
deriving DecidableEq

/-- `positions[type]`. -/
def getPos (t : PosType) (s : PState) : Option View :=
  match t with
  | .wgs84 => s.positions_wgs84
  | .dms_kmh => s.positions_dms_kmh
  | .dms_mph => s.positions_dms_mph
  | .dms_kn => s.positions_dms_kn

/-- The invalidation sweep of `position` (lines 194-211): every cached value
and per-type view is released and `newframes` reset. -/
def clearAll (s : PState) : PState :=
  { fb := { s.fb with newframes := 0 }
    time_ms := none
    latitude_wgs := none
    longitude_wgs := none
    latitude_dms := none
    longitude_dms := none
    altitude_m := none
    speed_ms := none
    speed_kmh := none
    speed_mph := none
    speed_kn := none
    track_d := none
    positions_wgs84 := none
    positions_dms_kmh := none
    positions_dms_mph := none
    positions_dms_kn := none }

/-- `&frames[frameidx]`, the newest fix. -/
def currentFix (s : PState) : Fix := s.fb.frames.getD s.fb.frameidx fix0

/-- The view-building branch of `position` (lines 215-286): builds missing
per-field sub-values from the newest fix, assembles the view for `t` and
stores it in `positions[t]`. -/
def buildView (t : PosType) (s : PState) : View × PState :=
  let g := currentFix s
  let time' := if s.time_ms = none ∧ g.set_time then some (JV.num (g.time : ℚ)) else s.time_ms
  let alt' := if s.altitude_m = none ∧ g.set_altitude then some (JV.num g.altitude) else s.altitude_m
  let trk' := if s.track_d = none ∧ g.set_track then some (JV.num g.track) else s.track_d
  match t with
  | .wgs84 =>
    let lat' := if s.latitude_wgs = none ∧ g.set_latitude
      then some (JV.num g.latitude) else s.latitude_wgs
    let lon' := if s.longitude_wgs = none ∧ g.set_longitude
      then some (JV.num g.longitude) else s.longitude_wgs
    let sp' := if s.speed_ms = none ∧ g.set_speed
      then some (JV.num g.speed) else s.speed_ms
    let v : View := ⟨typeName .wgs84, time', alt', trk', lat', lon', sp'⟩
    (v, { s with
          time_ms := time'
          altitude_m := alt'
          track_d := trk'
          latitude_wgs := lat'
          longitude_wgs := lon'
          speed_ms := sp'
          positions_wgs84 := some v })
  | .dms_kmh =>
    let lat' := if s.latitude_dms = none ∧ g.set_latitude
      then some (new_dms g.latitude true) else s.latitude_dms
    let lon' := if s.longitude_dms = none ∧ g.set_longitude
      then some (new_dms g.longitude false) else s.longitude_dms
    let sp' := if s.speed_kmh = none ∧ g.set_speed
      then some (JV.num (g.speed * METER_PER_SECOND_TO_KILOMETER_PER_HOUR)) else s.speed_kmh
    let v : View := ⟨typeName .dms_kmh, time', alt', trk', lat', lon', sp'⟩
    (v, { s with
          time_ms := time'
          altitude_m := alt'
          track_d := trk'
          latitude_dms := lat'
          longitude_dms := lon'
          speed_kmh := sp'
          positions_dms_kmh := some v })
  | .dms_mph =>
    let lat' := if s.latitude_dms = none ∧ g.set_latitude
      then some (new_dms g.latitude true) else s.latitude_dms
    let lon' := if s.longitude_dms = none ∧ g.set_longitude
      then some (new_dms g.longitude false) else s.longitude_dms
    let sp' := if s.speed_mph = none ∧ g.set_speed
      then some (JV.num (g.speed * METER_PER_SECOND_TO_MILE_PER_HOUR)) else s.speed_mph
    let v : View := ⟨typeName .dms_mph, time', alt', trk', lat', lon', sp'⟩
    (v, { s with
          time_ms := time'
          altitude_m := alt'
          track_d := trk'
          latitude_dms := lat'
          longitude_dms := lon'
          speed_mph := sp'
          positions_dms_mph := some v })
  | .dms_kn =>
    let lat' := if s.latitude_dms = none ∧ g.set_latitude
      then some (new_dms g.latitude true) else s.latitude_dms
    let lon' := if s.longitude_dms = none ∧ g.set_longitude
      then some (new_dms g.longitude false) else s.longitude_dms
    let sp' := if s.speed_kn = none ∧ g.set_speed
      then some (JV.num (g.speed * METER_PER_SECOND_TO_KNOT)) else s.speed_kn
    let v : View := ⟨typeName .dms_kn, time', alt', trk', lat', lon', sp'⟩
    (v, { s with
          time_ms := time'
          altitude_m := alt'
          track_d := trk'
          latitude_dms := lat'
          longitude_dms := lon'
          speed_kn := sp'
          positions_dms_kn := some v })

/-- Embedding of `position` (lines 188-289): invalidate the whole cache when
a new frame arrived, then return the cached view or build it. -/
def position (t : PosType) (s : PState) : View × PState :=
  let s1 := if s.fb.newframes ≠ 0 then clearAll s else s
  match getPos t s1 with
  | some v => (v, s1)
  | none => buildView t s1

/-! ## Subscription registry: period normalization (`event_get`, lines 313-318) -/

/-- The ternary pre-normalization of `event_get`:
`period = period <= 100 ? 1 : period > 60000 ? 600 : (period / 100)`. -/
def normPre (periodMs : Int) : Nat :=
  if periodMs ≤ 100 then 1 else if periodMs > 60000 then 600 else periodMs.toNat / 100

/-- The mask loop of `event_get`
(`mask = 31; while (period > (period & mask)) mask <<= 1;`), given explicit
fuel; `none` for every fuel models non-termination.  Note the C code shifts
the whole mask (31, 62, 124, …) instead of widening it (31, 63, 127, …). -/
def maskLoop : Nat → Nat → Nat → Option Nat
  | 0, _, _ => none
  | fuel + 1, p, mask =>
    if p ≤ p &&& mask then some (p &&& mask) else maskLoop fuel p (mask <<< 1)

/-- Full period normalization of `event_get`:
`perio = (uint32_t)(100 * (period & mask))` after the mask loop. -/
def normalizePeriod (fuel : Nat) (periodMs : Int) : Option Nat :=
  (maskLoop fuel (normPre periodMs) 31).map (fun v => 100 * v)

/-! ## Subscription registry (`struct period`/`struct event`, `event_of_id`,
`event_get`, lines 80-131 and 294-372) -/

/-- Two's-complement wrap of a C `int` increment. -/
def wrap32 (z : Int) : Int := ((z + 2 ^ 31) % 2 ^ 32) - 2 ^ 31

/-- `uint32_t` subtraction `now - last` (modular). -/
def sub32 (a b : Nat) : Nat := (((a : Int) - b) % 2 ^ 32).toNat

/-- One subscription (`struct event`): its representation type and unique id.
The event name (constant `"GPS"`) and the publish channel handle are
externals. -/
structure EvE where
  type : PosType
  id : Int
deriving DecidableEq

/-- One period bucket (`struct period`). -/
structure Period where
  period : Nat
  last : Nat
  evs : List EvE
deriving DecidableEq

/-- Registry state: the ascending period list, the global `byid` chain and
the static id counter of `event_get`. -/
structure RegState where
  periods : List Period
  events : List EvE
  nextId : Int
deriving DecidableEq

/-- Embedding of `event_of_id` (lines 294-300). -/
def event_of_id (i : Int) (es : List EvE) : Option EvE :=
  es.find? (fun e => e.id == i)

/-- The id allocation loop of `event_get`
(`do { id++; if (id < 0) id = 1; } while (event_of_id(id) != NULL)`), with
fuel; `events.length + 2` suffices since at most `events.length` ids are in
use. -/
def allocId : Nat → Int → List EvE → Option Int
  | 0, _, _ => none
  | fuel + 1, cur, es =>
    let i1 := wrap32 (cur + 1)
    let i2 := if i1 < 0 then 1 else i1
    if event_of_id i2 es = none then some i2 else allocId fuel i2 es

/-- Embedding of `event_get` (lines 305-372): normalize the period,
find-or-create the bucket keeping the list sorted by ascending period,
find-or-create the subscription for the type inside it (fresh buckets have
`last = 0` from `calloc`).  `none` models the normalization never
terminating (C1) or allocation failure. -/
def event_get (fuel : Nat) (t : PosType) (periodMs : Int) (st : RegState) :
    Option (EvE × RegState) :=
  match normalizePeriod fuel periodMs with
  | none => none
  | some perio =>
    let pre := st.periods.takeWhile (fun p => p.period < perio)
    match st.periods.dropWhile (fun p => p.period < perio) with
    | p :: rest =>
      if p.period = perio then
        match p.evs.find? (fun e => e.type == t) with
        | some e => some (e, st)
        | none =>
          match allocId (st.events.length + 2) st.nextId st.events with
          | none => none
          | some i =>
            some (⟨t, i⟩, { periods := pre ++ { p with evs := ⟨t, i⟩ :: p.evs } :: rest
                            events := ⟨t, i⟩ :: st.events
                            nextId := i })
      else
        match allocId (st.events.length + 2) st.nextId st.events with
        | none => none
        | some i =>
          some (⟨t, i⟩, { periods := pre ++ ⟨perio, 0, [⟨t, i⟩]⟩ :: p :: rest
                          events := ⟨t, i⟩ :: st.events
                          nextId := i })
    | [] =>
      match allocId (st.events.length + 2) st.nextId st.events with
      | none => none
      | some i =>
        some (⟨t, i⟩, { periods := pre ++ [⟨perio, 0, [⟨t, i⟩]⟩]
                        events := ⟨t, i⟩ :: st.events
                        nextId := i })

/-- The invariant claimed for buckets: at most one subscription per
representation type. -/
def BucketInv (st : RegState) : Prop :=
  ∀ p ∈ st.periods, ∀ t : PosType, (p.evs.filter (fun e => e.type == t)).length ≤ 1

/-! ## Dispatcher (`event_send`, lines 374-424) -/

/-- Whole-system state seen by `event_send`: the view cache (with the fix
buffer inside) and the registry. -/
structure SysState where
  ps : PState
  reg : RegState
deriving DecidableEq

/-- The inner loop of `event_send` over the events of a due bucket: each
subscription gets `position(e->type)` pushed on its channel (`push e.id`
models the return value of `afb_event_push`: `false` = no more listeners, in
which case the event is removed from the bucket and from the `byid` chain).
Returns the surviving events, the updated cache, the updated `byid` chain and
the published `(id, view)` pairs. -/
def pushEvents (push : Int → Bool) : List EvE → PState → List EvE →
    List EvE × PState × List EvE × List (Int × View)
  | [], ps, byid => ([], ps, byid, [])
  | e :: r, ps, byid =>
    let pv := position e.type ps
    if push e.id then
      let res := pushEvents push r pv.2 byid
      (e :: res.1, res.2.1, res.2.2.1, (e.id, pv.1) :: res.2.2.2)
    else
      let res := pushEvents push r pv.2 (byid.eraseP (fun x => x.id == e.id))
      (res.1, res.2.1, res.2.2.1, (e.id, pv.1) :: res.2.2.2)

/-- The outer loop of `event_send` over the period list: empty buckets are
freed; a due bucket (`p->period <= now - p->last`) updates `last` and pushes
to every subscription. -/
def sendPeriods (now : Nat) (push : Int → Bool) : List Period → PState → List EvE →
    List Period × PState × List EvE × List (Int × View)
  | [], ps, byid => ([], ps, byid, [])
  | p :: rest, ps, byid =>
    if p.evs = [] then sendPeriods now push rest ps byid
    else if p.period ≤ sub32 now p.last then
      let r1 := pushEvents push p.evs ps byid
      let r2 := sendPeriods now push rest r1.2.1 r1.2.2.1
      ({ p with last := now, evs := r1.1 } :: r2.1, r2.2.1, r2.2.2.1,
        r1.2.2.2 ++ r2.2.2.2)
    else
      let r2 := sendPeriods now push rest ps byid
      (p :: r2.1, r2.2.1, r2.2.2.1, r2.2.2.2)

/-- Embedding of `event_send`: immediate return when no new frame arrived,
otherwise one pass over the buckets. -/
def event_send (now : Nat) (push : Int → Bool) (st : SysState) :
    SysState × List (Int × View) :=
  if st.ps.fb.newframes = 0 then (st, [])
  else
    let r := sendPeriods now push st.reg.periods st.ps st.reg.events
    (⟨r.2.1, { periods := r.1
               events := r.2.2.1
               nextId := st.reg.nextId }⟩, r.2.2.2)

/-! ## Frame reader (`nmea_read`, lines 657-706) -/

/-- Persistent state of `nmea_read`: the 160-byte accumulation buffer and the
static `pos`/`overflow` variables (`rc` is loop-local). -/
structure RdState where
  buf : List Nat
  pos : Nat
  ovf : Bool
deriving DecidableEq

/-- `read(fd, &buffer[pos], ...)`: the arriving bytes land at offset `pos`;
the rest of the buffer keeps its previous (stale) contents. -/
def writeAt (buf : List Nat) (pos : Nat) (chunk : List Nat) : List Nat :=
  buf.take pos ++ chunk ++ buf.drop (pos + chunk.length)

/-- The scan loop of `nmea_read` (`while (pos != rc) ...`), fuelled.  Note
that it compares the scan position against `rc`, the byte count of the
latest `read` alone, exactly as the C does.  Emitted sentences are collected
in `acc` as the byte string passed to `nmea_sentence` (`&buffer[1]`,
checksum or `\r` stripped). -/
def scanBuf : Nat → List Nat → Nat → Int → Bool → List (List Nat) →
    List Nat × Nat × Bool × List (List Nat)
  | 0, buf, pos, _, ovf, acc => (buf, pos, ovf, acc)
  | fuel + 1, buf, pos, rc, ovf, acc =>
    if (pos : Int) = rc then (buf, pos, ovf, acc)
    else if buf.getD pos 0 ≠ 10 then
      (let pos' := pos + 1
       if (pos' : Int) = rc then
         if pos' = 160 then (buf, 0, true, acc) else (buf, pos', ovf, acc)
       else scanBuf fuel buf pos' rc ovf acc)
    else
      let emit := buf.getD 0 0 = 36 ∧ pos > 0 ∧ buf.getD (pos - 1) 0 = 13 ∧ ovf = false
      let star := pos > 3 ∧ buf.getD (pos - 4) 0 = 42
      let cut : Nat := if star then pos - 4 else pos - 1
      let buf1 := if emit then buf.set cut 0 else buf
      let acc1 := if emit then acc ++ [(buf.take cut).drop 1] else acc
      let pos' := pos + 1
      let rc' := rc - (pos' : Int)
      let buf2 := if rc' > 0 then ((buf1.drop pos').take rc'.toNat) ++ buf1.drop rc'.toNat
                  else buf1
      scanBuf fuel buf2 0 rc' false acc1

/-- The initial reader state (static arrays start zeroed). -/
def rdInit : RdState := ⟨List.replicate 160 0, 0, false⟩

/-- One successful `read` of `chunk` followed by the scan loop. -/
def readChunk (st : RdState) (chunk : List Nat) : RdState × List (List Nat) :=
  let buf1 := writeAt st.buf st.pos chunk
  let r := scanBuf 512 buf1 st.pos (chunk.length : Int) st.ovf []
  (⟨r.1, r.2.1, r.2.2.1⟩, r.2.2.2)

/-- A sequence of reads; collects every sentence passed to the parser. -/
def readChunks : RdState → List (List Nat) → RdState × List (List Nat)
  | st, [] => (st, [])
  | st, c :: cs =>
    let r1 := readChunk st c
    let r2 := readChunks r1.1 cs
    (r2.1, r1.2 ++ r2.2)

/-- A complete RMC sentence frame as it arrives on the wire. -/
def rmcFrame : List Nat :=
  str "$GPRMC,123519,A,4807.038,N,01131.000,E,022.4,084.4,230394,003.1,W,A\r\n"

/-- The body of `rmcFrame` that `nmea_read` hands to `nmea_sentence`. -/
def rmcBody : List Nat :=
  str "GPRMC,123519,A,4807.038,N,01131.000,E,022.4,084.4,230394,003.1,W,A"

/-! ## Theorems -/

/-- A shifted five-bit window `31 <<< k` can never cover two set bits of `p`
that are more than four positions apart. -/
lemma and_window_ne (p i j : Nat) (hij : i + 4 < j)
    (hi : p.testBit i = true) (hj : p.testBit j = true) (k : Nat) :
    p &&& (31 <<< k) ≠ p := by
  intro h
  have h31 : (31 : Nat) = 2 ^ 5 - 1 := by norm_num
  have hbi := congrArg (fun n => Nat.testBit n i) h
  have hbj := congrArg (fun n => Nat.testBit n j) h
  simp only [Nat.testBit_and, Nat.testBit_shiftLeft, h31,
    Nat.testBit_two_pow_sub_one, hi, hj, Bool.and_eq_true, decide_eq_true_eq,
    Bool.true_and, and_true, true_and] at hbi hbj
  omega

/-- If no shifted window ever covers all set bits of `p`, the mask loop runs
forever (returns `none` for every fuel). -/
lemma maskLoop_none (p : Nat) (hp : ∀ k, p &&& (31 <<< k) ≠ p) :
    ∀ fuel k, maskLoop fuel p (31 <<< k) = none := by
  intro fuel
  induction fuel with
  | zero => intro k; rfl
  | succ n ih =>
    intro k
    rw [maskLoop]
    have h1 : p &&& (31 <<< k) ≤ p := Nat.and_le_left
    have h2 := hp k
    rw [if_neg (by omega), ← Nat.shiftLeft_add]
    exact ih (k + 1)

/-- C1: the period normalization of `event_get` yields 100 ms for
periods 50, 100 and 150, and 2000/2500 ms for periods 2000/2500, but for the
periods 59999, 60001 and 100000 the mask loop never terminates (the code
shifts the whole 5-bit mask instead of widening it, and the pre-normalized
values 599 and 600 have set bits more than five positions apart), so no
bucket period is ever produced — contradicting the claimed termination with
a 60000 ms (resp. 59900 ms) bucket. -/
theorem event_get_normalization :
    ((∀ fuel, normalizePeriod fuel 100000 = none)
      ∧ (∀ fuel, normalizePeriod fuel 60001 = none)
      ∧ (∀ fuel, normalizePeriod fuel 59999 = none))
  ∧ normalizePeriod 64 50 = some 100
  ∧ normalizePeriod 64 100 = some 100
  ∧ normalizePeriod 64 150 = some 100
  ∧ normalizePeriod 64 2000 = some 2000
  ∧ normalizePeriod 64 2500 = some 2500 := by
  refine ⟨⟨?_, ?_, ?_⟩, by decide, by decide, by decide, by decide, by decide⟩
  · intro fuel
    have h600 : ∀ k, (600 : Nat) &&& (31 <<< k) ≠ 600 :=
      and_window_ne 600 3 9 (by norm_num) (by decide) (by decide)
    have hpre : normPre 100000 = 600 := by decide
    unfold normalizePeriod
    rw [hpre]
    simpa using maskLoop_none 600 h600 fuel 0
  · intro fuel
    have h600 : ∀ k, (600 : Nat) &&& (31 <<< k) ≠ 600 :=
      and_window_ne 600 3 9 (by norm_num) (by decide) (by decide)
    have hpre : normPre 60001 = 600 := by decide
    unfold normalizePeriod
    rw [hpre]
    simpa using maskLoop_none 600 h600 fuel 0
  · intro fuel
    have h599 : ∀ k, (599 : Nat) &&& (31 <<< k) ≠ 599 :=
      and_window_ne 599 0 9 (by norm_num) (by decide) (by decide)
    have hpre : normPre 59999 = 599 := by decide
    unfold normalizePeriod
    rw [hpre]
    simpa using maskLoop_none 599 h599 fuel 0

set_option maxHeartbeats 4000000 in
set_option maxRecDepth 16000 in
/-- C5 (amended): on every NUL-free byte string the C time decoder
`nmea_time` agrees with the specification-level decoder `timeSpec`:
it succeeds exactly when the string is six digits `HHMMSS` with hour ≤ 23,
minute ≤ 59 and second ≤ 59, optionally followed by `'.'` and up to three
fraction digits, or by four fraction digits after which all remaining
characters are ignored; the millisecond value is rounded up exactly when the
fourth fraction digit exceeds `'5'`. -/
theorem nmea_time_eq_timeSpec (s : List Nat) (hz : (0 : Nat) ∉ s) :
    nmea_time s = timeSpec s := by
  rcases s with _ | ⟨b0, _ | ⟨b1, _ | ⟨b2, _ | ⟨b3, _ | ⟨b4, _ | ⟨b5, rest⟩⟩⟩⟩⟩⟩
  · rfl
  · simp only [nmea_time, timeSpec, cAt, List.getD_cons_zero, List.getD_cons_succ,
      List.getD_nil]; norm_num
  · simp only [nmea_time, timeSpec, cAt, List.getD_cons_zero, List.getD_cons_succ,
      List.getD_nil]; norm_num
  · simp only [nmea_time, timeSpec, cAt, List.getD_cons_zero, List.getD_cons_succ,
      List.getD_nil]; norm_num
  · simp only [nmea_time, timeSpec, cAt, List.getD_cons_zero, List.getD_cons_succ,
      List.getD_nil]; norm_num
  · simp only [nmea_time, timeSpec, cAt, List.getD_cons_zero, List.getD_cons_succ,
      List.getD_nil]; norm_num
  · simp only [List.mem_cons, not_or] at hz
    obtain ⟨h0, h1, h2, h3, h4, h5, hr⟩ := hz
    rcases rest with _ | ⟨r6, rest'⟩
    · simp only [nmea_time, timeSpec, cAt, List.getD_cons_zero, List.getD_cons_succ,
        List.getD_nil, isDig, Bool.and_eq_true, decide_eq_true_eq]
      norm_num
      rcases eq_or_ne b0 50 with h50 | h50
      · subst h50
        norm_num
        split_ifs <;>
          first | (simp only [Option.some.injEq]; omega) | (exfalso; omega) | rfl
      · rw [if_neg h50]
        split_ifs <;>
          first | (simp only [Option.some.injEq]; omega) | (exfalso; omega) | rfl
    · obtain ⟨hr6, hr'⟩ := by simpa only [List.mem_cons, not_or] using hr
      by_cases h46 : r6 = 46
      · subst h46
        rcases rest' with _ | ⟨e1, _ | ⟨e2, _ | ⟨e3, _ | ⟨e4, tl⟩⟩⟩⟩
        · simp only [nmea_time, timeSpec, cAt, List.getD_cons_zero, List.getD_cons_succ,
            List.getD_nil, isDig, Bool.and_eq_true, decide_eq_true_eq]
          norm_num
          rcases eq_or_ne b0 50 with h50 | h50
          · subst h50
            norm_num
            split_ifs <;>
              first | (simp only [Option.some.injEq]; omega) | (exfalso; omega) | rfl
          · rw [if_neg h50]
            split_ifs <;>
              first | (simp only [Option.some.injEq]; omega) | (exfalso; omega) | rfl
        · obtain ⟨he1, -⟩ := by simpa only [List.mem_cons, not_or] using hr'
          simp only [nmea_time, timeSpec, cAt, List.getD_cons_zero, List.getD_cons_succ,
            List.getD_nil, isDig, Bool.and_eq_true, decide_eq_true_eq]
          norm_num [Ne.symm he1]
          rcases eq_or_ne b0 50 with h50 | h50
          · subst h50
            split_ifs <;>
              first | (simp only [Option.some.injEq]; omega) | (exfalso; omega) | rfl
          · rw [if_neg h50]
            split_ifs <;>
              first | (simp only [Option.some.injEq]; omega) | (exfalso; omega) | rfl
        · obtain ⟨he1, he2, -⟩ := by simpa only [List.mem_cons, not_or] using hr'
          simp only [nmea_time, timeSpec, cAt, List.getD_cons_zero, List.getD_cons_succ,
            List.getD_nil, isDig, Bool.and_eq_true, decide_eq_true_eq]
          norm_num [Ne.symm he1, Ne.symm he2]
          rcases eq_or_ne b0 50 with h50 | h50
          · subst h50
            split_ifs <;>
              first | (simp only [Option.some.injEq]; omega) | (exfalso; omega) | rfl
          · rw [if_neg h50]
            split_ifs <;>
              first | (simp only [Option.some.injEq]; omega) | (exfalso; omega) | rfl
        · obtain ⟨he1, he2, he3, -⟩ := by simpa only [List.mem_cons, not_or] using hr'
          simp only [nmea_time, timeSpec, cAt, List.getD_cons_zero, List.getD_cons_succ,
            List.getD_nil, isDig, Bool.and_eq_true, decide_eq_true_eq]
          norm_num [Ne.symm he1, Ne.symm he2, Ne.symm he3]
          rcases eq_or_ne b0 50 with h50 | h50
          · subst h50
            split_ifs <;>
              first | (simp only [Option.some.injEq]; omega) | (exfalso; omega) | rfl
          · rw [if_neg h50]
            split_ifs <;>
              first | (simp only [Option.some.injEq]; omega) | (exfalso; omega) | rfl
        · obtain ⟨he1, he2, he3, he4, -⟩ := by simpa only [List.mem_cons, not_or] using hr'
          simp only [nmea_time, timeSpec, cAt, List.getD_cons_zero, List.getD_cons_succ,
            List.getD_nil, isDig, Bool.and_eq_true, decide_eq_true_eq]
          norm_num [Ne.symm he1, Ne.symm he2, Ne.symm he3, Ne.symm he4]
          rcases eq_or_ne b0 50 with h50 | h50
          · subst h50
            split_ifs <;>
              first | (simp only [Option.some.injEq]; omega) | (exfalso; omega) | rfl
          · rw [if_neg h50]
            split_ifs <;>
              first | (simp only [Option.some.injEq]; omega) | (exfalso; omega) | rfl
      · simp only [nmea_time, timeSpec, cAt, List.getD_cons_zero, List.getD_cons_succ,
          List.getD_nil, isDig, Bool.and_eq_true, decide_eq_true_eq]
        norm_num [Ne.symm hr6, h46]
        split_ifs
        · split <;> simp_all
        · rfl

set_option maxRecDepth 8000 in
/-- C6: delivered whole, the sentence is framed and passed to the parser
exactly once, and two sentences in one chunk are both parsed in order (the
shift-to-front works within one read); but the same sentence split into a
10-byte and a 59-byte read is never passed to the parser at all — the scan
loop compares its position against the byte count of the latest `read`
instead of the total buffered length, so the terminator of the reassembled
sentence is never scanned, refuting the claimed cross-read reassembly. -/
theorem nmea_read_split_bug :
    (readChunks rdInit [rmcFrame]).2 = [rmcBody]
  ∧ (readChunks rdInit [rmcFrame ++ rmcFrame]).2 = [rmcBody, rmcBody]
  ∧ (readChunks rdInit [rmcFrame.take 10, rmcFrame.drop 10]).2 = [] := by
  refine ⟨by decide, by decide, by decide⟩

/-- Every element of `takeWhile p l` satisfies `p`. -/
lemma mem_takeWhile_pred {α : Type} (p : α → Bool) :
    ∀ (l : List α) (x : α), x ∈ l.takeWhile p → p x = true := by
  intro l
  induction l with
  | nil => intro x hx; simp at hx
  | cons a l ih =>
    intro x hx
    rw [List.takeWhile_cons] at hx
    by_cases ha : p a
    · rw [if_pos ha] at hx
      rcases List.mem_cons.mp hx with rfl | hx
      · exact ha
      · exact ih x hx
    · rw [if_neg ha] at hx
      simp at hx

/-- `takeWhile`/`dropWhile` split around the first element falsifying the
predicate. -/
lemma takeWhile_middle {α : Type} (p : α → Bool) (l1 l2 : List α) (q : α)
    (h1 : ∀ x ∈ l1, p x = true) (h2 : p q = false) :
    (l1 ++ q :: l2).takeWhile p = l1 ∧ (l1 ++ q :: l2).dropWhile p = q :: l2 := by
  induction l1 with
  | nil => simp [List.takeWhile_cons, List.dropWhile_cons, h2]
  | cons a l ih =>
    have ha : p a = true := h1 a (by simp)
    have := ih (fun x hx => h1 x (by simp [hx]))
    simp [List.takeWhile_cons, List.dropWhile_cons, ha, this.1, this.2]

/-- C10: if `event_get` returns a subscription, calling it again with the
same type and period returns the same subscription (same id) and leaves the
registry unchanged — no duplicate is created — and the per-bucket invariant
"at most one subscription per representation type" is preserved. -/
theorem event_get_dedup (fuel : Nat) (t : PosType) (pm : Int) (st : RegState)
    (e1 : EvE) (st1 : RegState) (h : event_get fuel t pm st = some (e1, st1)) :
    event_get fuel t pm st1 = some (e1, st1) ∧ (BucketInv st → BucketInv st1) := by
  rcases hn : normalizePeriod fuel pm with _ | perio
  · simp only [event_get, hn] at h
    exact absurd h (by simp)
  simp only [event_get, hn] at h
  have hpre : ∀ x ∈ st.periods.takeWhile (fun p : Period => decide (p.period < perio)),
      ((fun p : Period => decide (p.period < perio)) x) = true :=
    mem_takeWhile_pred _ st.periods
  rcases hpost : st.periods.dropWhile (fun p => p.period < perio) with _ | ⟨p, rest⟩ <;>
    simp only [hpost] at h
  · -- no matching period: a fresh one with a fresh event appended at the end
    rcases ha : allocId (st.events.length + 2) st.nextId st.events with _ | i
    · simp only [ha] at h
      exact absurd h (by simp)
    simp only [ha, Option.some.injEq, Prod.mk.injEq] at h
    obtain ⟨he, hst⟩ := h
    subst he
    constructor
    · simp only [event_get, hn, ← hst]
      have hmid := takeWhile_middle (fun p : Period => decide (p.period < perio))
        (st.periods.takeWhile (fun p => p.period < perio)) [] ⟨perio, 0, [⟨t, i⟩]⟩
        hpre (by simp)
      simp only [hmid.1, hmid.2]
      simp [List.find?_cons_of_pos]
    · intro hinv q hq tq
      rw [← hst] at hq
      simp only [List.mem_append, List.mem_cons] at hq
      rcases hq with hq | hq | hq
      · exact hinv q ((List.takeWhile_sublist _).subset hq) tq
      · subst hq
        simp only [List.filter]
        split <;> simp
      · exact absurd hq (by simp)
  · by_cases hpp : p.period = perio
    · rw [if_pos hpp] at h
      rcases hf : p.evs.find? (fun e => e.type == t) with _ | e <;> simp only [hf] at h
      · -- event missing in the existing bucket: created at its head
        rcases ha : allocId (st.events.length + 2) st.nextId st.events with _ | i
        · simp only [ha] at h
          exact absurd h (by simp)
        simp only [ha, Option.some.injEq, Prod.mk.injEq] at h
        obtain ⟨he, hst⟩ := h
        subst he
        constructor
        · simp only [event_get, hn, ← hst]
          have hmid := takeWhile_middle (fun p : Period => decide (p.period < perio))
            (st.periods.takeWhile (fun p => p.period < perio)) rest
            { p with evs := ⟨t, i⟩ :: p.evs } hpre (by simp [hpp])
          simp only [hmid.1, hmid.2]
          simp [hpp, List.find?_cons_of_pos]
        · intro hinv q hq tq
          rw [← hst] at hq
          simp only [List.mem_append, List.mem_cons] at hq
          have hpmem : p ∈ st.periods := by
            have hm : p ∈ st.periods.dropWhile (fun p => p.period < perio) := by
              rw [hpost]; simp
            exact (List.dropWhile_sublist _).subset hm
          rcases hq with hq | hq | hq
          · exact hinv q ((List.takeWhile_sublist _).subset hq) tq
          · subst hq
            simp only [List.filter_cons]
            split
            · rename_i hbt
              simp only [beq_iff_eq] at hbt
              have hnil : p.evs.filter (fun e => e.type == tq) = [] := by
                rw [List.filter_eq_nil_iff]
                intro a hae
                have hna := List.find?_eq_none.mp hf a hae
                simp only [beq_iff_eq] at hna ⊢
                rw [← hbt]
                exact hna
              simp [hnil]
            · exact hinv p hpmem tq
          · have hm : q ∈ st.periods := by
              have hm2 : q ∈ st.periods.dropWhile (fun p => p.period < perio) := by
                rw [hpost]; simp [hq]
              exact (List.dropWhile_sublist _).subset hm2
            exact hinv q hm tq
      · -- event found: state unchanged, same subscription returned
        simp only [Option.some.injEq, Prod.mk.injEq] at h
        obtain ⟨he, hst⟩ := h
        subst he hst
        refine ⟨?_, fun hv => hv⟩
        simp only [event_get, hn, hpost, if_pos hpp, hf]
    · rw [if_neg hpp] at h
      rcases ha : allocId (st.events.length + 2) st.nextId st.events with _ | i
      · simp only [ha] at h
        exact absurd h (by simp)
      simp only [ha, Option.some.injEq, Prod.mk.injEq] at h
      obtain ⟨he, hst⟩ := h
      subst he
      constructor
      · simp only [event_get, hn, ← hst]
        have hmid := takeWhile_middle (fun p : Period => decide (p.period < perio))
          (st.periods.takeWhile (fun p => p.period < perio)) (p :: rest)
          ⟨perio, 0, [⟨t, i⟩]⟩ hpre (by simp)
        simp only [hmid.1, hmid.2]
        simp [List.find?_cons_of_pos]
      · intro hinv q hq tq
        rw [← hst] at hq
        simp only [List.mem_append, List.mem_cons] at hq
        rcases hq with hq | hq | hq
        · exact hinv q ((List.takeWhile_sublist _).subset hq) tq
        · subst hq
          simp only [List.filter]
          split <;> simp
        · have hm : q ∈ st.periods := by
            have hm2 : q ∈ st.periods.dropWhile (fun p => p.period < perio) := by
              rw [hpost]; simp [hq]
            exact (List.dropWhile_sublist _).subset hm2
          exact hinv q hm tq

/-- Every subscription of a due bucket is pushed exactly its view. -/
lemma pushEvents_pub (push : Int → Bool) :
    ∀ (evs : List EvE) (ps : PState) (byid : List EvE) (e : EvE), e ∈ evs →
      ∃ v, (e.id, v) ∈ (pushEvents push evs ps byid).2.2.2 := by
  intro evs
  induction evs with
  | nil => intro ps byid e he; simp at he
  | cons a r ih =>
    intro ps byid e he
    rcases List.mem_cons.mp he with rfl | he
    · rw [pushEvents]
      split
      · exact ⟨(position e.type ps).1, by simp⟩
      · exact ⟨(position e.type ps).1, by simp⟩
    · rw [pushEvents]
      split
      · obtain ⟨v, hv⟩ := ih (position a.type ps).2 byid e he
        exact ⟨v, by simp [hv]⟩
      · obtain ⟨v, hv⟩ := ih (position a.type ps).2 (byid.eraseP (fun x => x.id == a.id)) e he
        exact ⟨v, by simp [hv]⟩

/-- Every bucket surviving a dispatch pass descends from a non-empty input
bucket (empty buckets are freed). -/
lemma sendPeriods_periods (now : Nat) (push : Int → Bool) :
    ∀ (l : List Period) (ps : PState) (byid : List EvE),
      ∀ q ∈ (sendPeriods now push l ps byid).1,
        ∃ p ∈ l, q.period = p.period ∧ p.evs ≠ [] := by
  intro l
  induction l with
  | nil => intro ps byid q hq; simp [sendPeriods] at hq
  | cons p rest ih =>
    intro ps byid q hq
    rw [sendPeriods] at hq
    split at hq
    · obtain ⟨p', hp', h1, h2⟩ := ih ps byid q hq
      exact ⟨p', by simp [hp'], h1, h2⟩
    · rename_i hne
      split at hq
      · rcases List.mem_cons.mp hq with rfl | hq
        · exact ⟨p, by simp, rfl, hne⟩
        · obtain ⟨p', hp', h1, h2⟩ :=
            ih (pushEvents push p.evs ps byid).2.1 (pushEvents push p.evs ps byid).2.2.1 q hq
          exact ⟨p', by simp [hp'], h1, h2⟩
      · rcases List.mem_cons.mp hq with rfl | hq
        · exact ⟨q, by simp, rfl, hne⟩
        · obtain ⟨p', hp', h1, h2⟩ := ih ps byid q hq
          exact ⟨p', by simp [hp'], h1, h2⟩

/-- A due non-empty bucket publishes to each of its subscriptions. -/
lemma sendPeriods_pub (now : Nat) (push : Int → Bool) :
    ∀ (l : List Period) (ps : PState) (byid : List EvE) (p : Period), p ∈ l →
      p.evs ≠ [] → p.period ≤ sub32 now p.last →
      ∀ e ∈ p.evs, ∃ v, (e.id, v) ∈ (sendPeriods now push l ps byid).2.2.2 := by
  intro l
  induction l with
  | nil => intro ps byid p hp; simp at hp
  | cons a rest ih =>
    intro ps byid p hp hne hdue e he
    rw [sendPeriods]
    rcases List.mem_cons.mp hp with rfl | hp
    · rw [if_neg hne, if_pos hdue]
      obtain ⟨v, hv⟩ := pushEvents_pub push p.evs ps byid e he
      exact ⟨v, by simp [hv]⟩
    · split
      · exact ih ps byid p hp hne hdue e he
      · split
        · obtain ⟨v, hv⟩ :=
            ih (pushEvents push a.evs ps byid).2.1 (pushEvents push a.evs ps byid).2.2.1
              p hp hne hdue e he
          exact ⟨v, by simp [hv]⟩
        · exact ih ps byid p hp hne hdue e he

/-- C4: when no fix arrived since the previous tick (`newframes = 0`),
`event_send` changes no state and publishes nothing; when at least one fix
arrived, every bucket kept by the pass was non-empty at entry (empty period
buckets are removed), and every bucket whose period has elapsed
(`period ≤ now - last` in `uint32` arithmetic) publishes the current view to
every one of its subscriptions. -/
theorem event_send_spec (now : Nat) (push : Int → Bool) (st : SysState) :
    (st.ps.fb.newframes = 0 → event_send now push st = (st, []))
  ∧ (st.ps.fb.newframes ≠ 0 →
      (∀ q ∈ (event_send now push st).1.reg.periods,
        ∃ p ∈ st.reg.periods, q.period = p.period ∧ p.evs ≠ [])
    ∧ (∀ p ∈ st.reg.periods, p.evs ≠ [] → p.period ≤ sub32 now p.last →
        ∀ e ∈ p.evs, ∃ v, (e.id, v) ∈ (event_send now push st).2)) := by
  constructor
  · intro h0
    simp [event_send, h0]
  · intro hnf
    have hesend : event_send now push st =
        (⟨(sendPeriods now push st.reg.periods st.ps st.reg.events).2.1,
          { periods := (sendPeriods now push st.reg.periods st.ps st.reg.events).1
            events := (sendPeriods now push st.reg.periods st.ps st.reg.events).2.2.1
            nextId := st.reg.nextId }⟩,
         (sendPeriods now push st.reg.periods st.ps st.reg.events).2.2.2) := by
      simp [event_send, hnf]
    rw [hesend]
    constructor
    · intro q hq
      exact sendPeriods_periods now push st.reg.periods st.ps st.reg.events q hq
    · intro p hp hne hdue e he
      exact sendPeriods_pub now push st.reg.periods st.ps st.reg.events p hp hne hdue e he

/-- C10 (witness): subscribing twice to (WGS84, 2000 ms) from the empty
registry returns the same id-1 subscription and the same registry. -/
theorem event_get_dedup_witness :
    event_get 64 PosType.wgs84 2000 ⟨[], [], 0⟩
      = some (⟨PosType.wgs84, 1⟩,
          ⟨[⟨2000, 0, [⟨PosType.wgs84, 1⟩]⟩], [⟨PosType.wgs84, 1⟩], 1⟩)
  ∧ (event_get 64 PosType.wgs84 2000
        ⟨[⟨2000, 0, [⟨PosType.wgs84, 1⟩]⟩], [⟨PosType.wgs84, 1⟩], 1⟩
      = some (⟨PosType.wgs84, 1⟩,
          ⟨[⟨2000, 0, [⟨PosType.wgs84, 1⟩]⟩], [⟨PosType.wgs84, 1⟩], 1⟩)
     ∧ (BucketInv ⟨[], [], 0⟩ →
        BucketInv ⟨[⟨2000, 0, [⟨PosType.wgs84, 1⟩]⟩], [⟨PosType.wgs84, 1⟩], 1⟩)) := by
  refine ⟨by decide, ?_⟩
  exact event_get_dedup 64 PosType.wgs84 2000 ⟨[], [], 0⟩ _ _ (by decide)

/-- C4 (witness): with one unseen frame and one due bucket holding the id-1
subscription, the tick publishes a view for id 1. -/
theorem event_send_spec_witness :
    ((⟨⟨⟨List.replicate 10 fix0, 0, 1⟩, none, none, none, none, none, none, none,
        none, none, none, none, none, none, none, none⟩,
       ⟨[⟨100, 0, [⟨PosType.wgs84, 1⟩]⟩], [⟨PosType.wgs84, 1⟩], 1⟩⟩ : SysState).ps.fb.newframes ≠ 0)
  ∧ ∃ v, ((1 : Int), v) ∈
      (event_send 5000 (fun _ => true)
        (⟨⟨⟨List.replicate 10 fix0, 0, 1⟩, none, none, none, none, none, none, none,
          none, none, none, none, none, none, none, none⟩,
         ⟨[⟨100, 0, [⟨PosType.wgs84, 1⟩]⟩], [⟨PosType.wgs84, 1⟩], 1⟩⟩ : SysState)).2 := by
  refine ⟨by decide, ?_⟩
  exact ((event_send_spec 5000 (fun _ => true) _).2 (by decide)).2
    ⟨100, 0, [⟨PosType.wgs84, 1⟩]⟩ (by decide) (by decide) (by decide)
    ⟨PosType.wgs84, 1⟩ (by decide)

/-- `positions[t]` right after building the view for `t` holds exactly that
view. -/
lemma getPos_buildView (t : PosType) (s : PState) :
    getPos t (buildView t s).2 = some (buildView t s).1 := by
  cases t <;> rfl

/-- Building a view never touches the fix buffer. -/
lemma buildView_fb (t : PosType) (s : PState) : (buildView t s).2.fb = s.fb := by
  cases t <;> rfl

/-- After the invalidation sweep every per-type view is gone. -/
lemma getPos_clearAll (t : PosType) (s : PState) : getPos t (clearAll s) = none := by
  cases t <;> rfl

/-- C9: a second `position` call for the same type returns the same view and
leaves the state unchanged (cache hit); and when a new fix has arrived
(`newframes ≠ 0`), `position` behaves exactly as on the fully invalidated
state — one sweep discards every cached sub-value and per-type view — and the
returned view's time member reflects the newest fix. -/
theorem position_memo (t : PosType) (s : PState) :
    position t (position t s).2 = ((position t s).1, (position t s).2)
  ∧ (s.fb.newframes ≠ 0 →
      position t s = position t (clearAll s)
      ∧ (position t s).1.time
          = (if (currentFix s).set_time then some (JV.num ((currentFix s).time : ℚ))
             else none)) := by
  constructor
  · by_cases hnf : s.fb.newframes ≠ 0
    · have h1 : position t s = buildView t (clearAll s) := by
        simp only [position, if_pos hnf, getPos_clearAll]
      have h2 : (buildView t (clearAll s)).2.fb.newframes = 0 := by
        rw [buildView_fb]; rfl
      rw [h1]
      simp only [position, h2, ne_eq, not_true_eq_false, if_neg, not_not,
        not_false_eq_true, getPos_buildView]
    · push_neg at hnf
      have hs1 : (if s.fb.newframes ≠ 0 then clearAll s else s) = s := by
        simp [hnf]
      rcases hv : getPos t s with _ | v
      · have h1 : position t s = buildView t s := by
          simp only [position, hs1, hv]
        have h2 : (buildView t s).2.fb.newframes = 0 := by rw [buildView_fb, hnf]
        rw [h1]
        simp only [position, h2, ne_eq, not_true_eq_false, if_neg, not_not,
          not_false_eq_true, getPos_buildView]
      · have h1 : position t s = (v, s) := by
          simp only [position, hs1, hv]
        rw [h1]
        simp only [position, hs1, hv]
  · intro hnf
    have h1 : position t s = buildView t (clearAll s) := by
      simp only [position, if_pos hnf, getPos_clearAll]
    have h2 : position t (clearAll s) = buildView t (clearAll s) := by
      have h0 : (clearAll s).fb.newframes = 0 := rfl
      simp only [position, h0, ne_eq, not_true_eq_false, getPos_clearAll,
        if_neg, not_not, not_false_eq_true]
    refine ⟨h1.trans h2.symm, ?_⟩
    rw [h1]
    have hfx : currentFix (clearAll s) = currentFix s := rfl
    cases t <;>
      simp [buildView, clearAll, currentFix, hfx]

/-- C9 (witness): the invalidation part of the cache theorem applied to a
fresh state carrying one unseen frame (`newframes = 1`). -/
theorem position_memo_witness :
    ((⟨⟨List.replicate 10 fix0, 0, 1⟩, none, none, none, none, none, none, none,
        none, none, none, none, none, none, none, none⟩ : PState).fb.newframes ≠ 0)
  ∧ (position PosType.wgs84
        (⟨⟨List.replicate 10 fix0, 0, 1⟩, none, none, none, none, none, none, none,
          none, none, none, none, none, none, none, none⟩ : PState)
      = position PosType.wgs84 (clearAll
        (⟨⟨List.replicate 10 fix0, 0, 1⟩, none, none, none, none, none, none, none,
          none, none, none, none, none, none, none, none⟩ : PState))
    ∧ (position PosType.wgs84
        (⟨⟨List.replicate 10 fix0, 0, 1⟩, none, none, none, none, none, none, none,
          none, none, none, none, none, none, none, none⟩ : PState)).1.time
      = (if (currentFix
            (⟨⟨List.replicate 10 fix0, 0, 1⟩, none, none, none, none, none, none, none,
              none, none, none, none, none, none, none, none⟩ : PState)).set_time
         then some (JV.num ((currentFix
            (⟨⟨List.replicate 10 fix0, 0, 1⟩, none, none, none, none, none, none, none,
              none, none, none, none, none, none, none, none⟩ : PState)).time : ℚ))
         else none)) :=
  ⟨by decide,
   (position_memo PosType.wgs84
      (⟨⟨List.replicate 10 fix0, 0, 1⟩, none, none, none, none, none, none, none,
        none, none, none, none, none, none, none, none⟩ : PState)).2 (by decide)⟩

/-- C2: a well-formed GGA sentence that passes the 14-field split and the
non-zero quality check drives `nmea_set` into the branch that evaluates
`atof` on its NULL `tra` argument (the null test of the track block is
inverted), refuting the claim that this branch is unreachable for `tra =
none`. -/
theorem nmea_gga_null_track_read :
    nmea_sentence (str "GPGGA,123519,4807.038,N,01131.000,E,1,545.4,M,46.9,M,1,2,3,4")
      = SetR.nullDeref := by
  decide

/-- C3: an accepted RMC sentence with the non-empty track field `"084.4"`
stores a fix whose track flag is `false` — the inverted null test
(`if (tra != NULL) gps.set.track = 0;`) marks track absent whenever the
field is present, contradicting the claim that the track is decoded and
marked present. -/
theorem nmea_rmc_track_dropped :
    trackFlag (nmea_rmc (str "123519,A,4807.038,N,01131.000,E,022.4,084.4,230394,003.1,W,A"))
      = some false := by
  decide

/-- C7: whenever `nmea_set` stores a fix from non-NULL longitude fields whose
angle decodes to `a`, hemisphere `"W"` (byte 87) stores `360 - a` and
hemisphere `"E"` (byte 69) stores `a` unchanged; any first byte other than
`'E'`/`'W'`, or a second byte, rejects the whole sentence. -/
theorem nmea_set_longitude (tim lat latu alt altu spe tra dat : Option (List Nat))
    (l u : List Nat) :
    (∀ g a, nmea_angle l = some a →
       nmea_set tim lat latu (some l) (some u) alt altu spe tra dat = .stored g →
       g.set_longitude = true
       ∧ (cAt u 0 = 87 → g.longitude = 360 - a)
       ∧ (cAt u 0 = 69 → g.longitude = a))
  ∧ (((cAt u 0 ≠ 69 ∧ cAt u 0 ≠ 87) ∨ cAt u 1 ≠ 0) →
     nmea_set tim lat latu (some l) (some u) alt altu spe tra dat = .rejected) := by
  constructor
  · intro g a ha hst
    unfold nmea_set at hst
    rcases htim : timePart tim with _ | ⟨stime, vtime⟩ <;> rw [htim] at hst
    · exact absurd hst (by simp)
    rcases hlat : latPart lat latu with _ | ⟨slat, vlat⟩ <;> rw [hlat] at hst
    · exact absurd hst (by simp)
    rcases hlon : lonPart (some l) (some u) with _ | ⟨slon, vlon⟩ <;> rw [hlon] at hst
    · exact absurd hst (by simp)
    rcases halt : altPart alt altu with _ | ⟨salt, valt⟩ <;> rw [halt] at hst
    · exact absurd hst (by simp)
    rcases tra with _ | t
    · exact absurd hst (by simp)
    simp only [SetR.stored.injEq] at hst
    subst hst
    simp only [lonPart, ha] at hlon
    split at hlon
    · exact absurd hlon (by simp)
    · simp only [Option.some.injEq, Prod.mk.injEq] at hlon
      obtain ⟨hs, hv⟩ := hlon
      refine ⟨hs.symm, ?_, ?_⟩
      · intro h87
        simp only [← hv, h87, if_pos]
      · intro h69
        rw [← hv, if_neg (by omega)]
  · intro hbad
    unfold nmea_set
    rcases htim : timePart tim with _ | ⟨stime, vtime⟩
    · rfl
    rcases hlat : latPart lat latu with _ | ⟨slat, vlat⟩
    · rfl
    have hlon : lonPart (some l) (some u) = none := by
      simp only [lonPart]
      rw [if_pos hbad]
    rw [hlon]

/-- C7 (witness): the longitude theorem applied to a sentence carrying
longitude `"0.0"` with hemisphere `"W"` (both hypotheses discharged by
`rfl`); the stored longitude is `360 - angle`. -/
theorem nmea_set_longitude_witness :
    nmea_angle (str "0.0") = some ((0 : ℚ) + atofQ (str "0.0") * MIN_PER_DEG)
  ∧ ((⟨false, false, true, false, false, false, 0, 0,
        360 - ((0 : ℚ) + atofQ (str "0.0") * MIN_PER_DEG), 0, 0, 0⟩ : Fix).set_longitude = true
      ∧ (cAt (str "W") 0 = 87 →
          (⟨false, false, true, false, false, false, 0, 0,
            360 - ((0 : ℚ) + atofQ (str "0.0") * MIN_PER_DEG), 0, 0, 0⟩ : Fix).longitude
            = 360 - ((0 : ℚ) + atofQ (str "0.0") * MIN_PER_DEG))
      ∧ (cAt (str "W") 0 = 69 →
          (⟨false, false, true, false, false, false, 0, 0,
            360 - ((0 : ℚ) + atofQ (str "0.0") * MIN_PER_DEG), 0, 0, 0⟩ : Fix).longitude
            = (0 : ℚ) + atofQ (str "0.0") * MIN_PER_DEG)) :=
  ⟨rfl,
   (nmea_set_longitude none none none none none none (some (str "1")) none
      (str "0.0") (str "W")).1
     ⟨false, false, true, false, false, false, 0, 0,
       360 - ((0 : ℚ) + atofQ (str "0.0") * MIN_PER_DEG), 0, 0, 0⟩
     ((0 : ℚ) + atofQ (str "0.0") * MIN_PER_DEG) rfl rfl⟩

/-- C8: a rejected line (and also the GGA null-dereference path) leaves the
fix buffer — frames, write cursor and generation counter — unchanged, in
particular for representative lines with a wrong tag, a wrong field count, a
malformed digit, a wrong hemisphere letter, a wrong altitude unit, GGA
quality `'0'` and RMC status `'V'`; a stored fix advances the counter by
exactly one, moves the cursor one slot backward, writes the fix there and
leaves every other slot untouched. -/
theorem nmea_ingest_effects (b : FixBuf) (hlen : b.frames.length = 10)
    (hidx : b.frameidx < 10) :
    (∀ s, nmea_sentence s = .rejected → processSentence b s = b)
  ∧ (∀ s, nmea_sentence s = .nullDeref → processSentence b s = b)
  ∧ (∀ s g, nmea_sentence s = .stored g →
        (processSentence b s).newframes = b.newframes + 1
      ∧ (processSentence b s).frameidx = (if b.frameidx = 0 then 10 else b.frameidx) - 1
      ∧ (processSentence b s).frames.getD (processSentence b s).frameidx fix0 = g
      ∧ (∀ j, j ≠ (processSentence b s).frameidx →
          (processSentence b s).frames.getD j fix0 = b.frames.getD j fix0)
      ∧ (processSentence b s).frames.length = 10)
  ∧ processSentence b (str "GPGSV,3,1,11") = b
  ∧ processSentence b (str "GPRMC,123519,A,4807.038,N") = b
  ∧ processSentence b (str "GPRMC,12a519,A,4807.038,N,01131.000,E,022.4,084.4,230394,003.1,W,A") = b
  ∧ processSentence b (str "GPRMC,123519,A,4807.038,Q,01131.000,E,022.4,084.4,230394,003.1,W,A") = b
  ∧ processSentence b (str "GPGGA,123519,4807.038,N,01131.000,E,0,545.4,M,46.9,M,1,2,3,4") = b
  ∧ processSentence b (str "GPRMC,123519,V,4807.038,N,01131.000,E,022.4,084.4,230394,003.1,W,A") = b
  ∧ processSentence b (str "GPGGA,123519,4807.038,N,01131.000,E,1,545.4,F,46.9,M,1,2,3,4") = b := by
  refine ⟨?_, ?_, ?_, ?_, ?_, ?_, ?_, ?_, ?_, ?_⟩
  · intro s hs; simp [processSentence, hs]
  · intro s hs; simp [processSentence, hs]
  · intro s g hs
    have hfx : processSentence b s = pushFrame g b := by simp [processSentence, hs]
    rw [hfx]
    have hlt : (if b.frameidx = 0 then 10 else b.frameidx) - 1 < b.frames.length := by
      rw [hlen]; split <;> omega
    refine ⟨rfl, rfl, ?_, ?_, by simp [pushFrame, hlen]⟩
    · show (b.frames.set ((if b.frameidx = 0 then 10 else b.frameidx) - 1) g).getD
        ((if b.frameidx = 0 then 10 else b.frameidx) - 1) fix0 = g
      rw [List.getD_eq_getElem?_getD, List.getElem?_set_self hlt]
      rfl
    · intro j hj
      have hj' : j ≠ (if b.frameidx = 0 then 10 else b.frameidx) - 1 := hj
      show (b.frames.set ((if b.frameidx = 0 then 10 else b.frameidx) - 1) g).getD j fix0
        = b.frames.getD j fix0
      rw [List.getD_eq_getElem?_getD, List.getElem?_set_ne (Ne.symm hj'),
        ← List.getD_eq_getElem?_getD]
  · have h : nmea_sentence (str "GPGSV,3,1,11") = .rejected := by decide
    simp [processSentence, h]
  · have h : nmea_sentence (str "GPRMC,123519,A,4807.038,N") = .rejected := by decide
    simp [processSentence, h]
  · have h : nmea_sentence
        (str "GPRMC,12a519,A,4807.038,N,01131.000,E,022.4,084.4,230394,003.1,W,A")
        = .rejected := by decide
    simp [processSentence, h]
  · have h : nmea_sentence
        (str "GPRMC,123519,A,4807.038,Q,01131.000,E,022.4,084.4,230394,003.1,W,A")
        = .rejected := by decide
    simp [processSentence, h]
  · have h : nmea_sentence
        (str "GPGGA,123519,4807.038,N,01131.000,E,0,545.4,M,46.9,M,1,2,3,4")
        = .rejected := by decide
    simp [processSentence, h]
  · have h : nmea_sentence
        (str "GPRMC,123519,V,4807.038,N,01131.000,E,022.4,084.4,230394,003.1,W,A")
        = .rejected := by decide
    simp [processSentence, h]
  · have h : nmea_sentence
        (str "GPGGA,123519,4807.038,N,01131.000,E,1,545.4,F,46.9,M,1,2,3,4")
        = .rejected := by decide
    simp [processSentence, h]

/-- C8 (witness): the side-effect theorem applied to a fresh 10-frame buffer
and the wrong-tag line. -/
theorem nmea_ingest_effects_witness :
    (List.replicate 10 fix0).length = 10 ∧ (0 : Nat) < 10
  ∧ processSentence ⟨List.replicate 10 fix0, 0, 0⟩ (str "GPGSV,3,1,11")
      = ⟨List.replicate 10 fix0, 0, 0⟩ :=
  ⟨by decide, by decide,
   (nmea_ingest_effects ⟨List.replicate 10 fix0, 0, 0⟩ (by decide) (by decide)).2.2.2.1⟩

/-- C5 (counterexample): the input `"123519.12345"` has five fraction digits,
so by the claim it should be rejected; the code accepts it (ignoring
everything after the fourth fraction digit) and returns 45319123 ms. -/
theorem nmea_time_claim_cex :
    nmea_time (str "123519.12345") = some 45319123
      ∧ claimTimeShape (str "123519.12345") = false := by
  constructor <;> decide

/-- C5 (witness): the amended equivalence evaluated at `"123519.00"`. -/
theorem nmea_time_eq_timeSpec_witness :
    ((0 : Nat) ∉ str "123519.00")
      ∧ nmea_time (str "123519.00") = timeSpec (str "123519.00") :=
  ⟨by decide, nmea_time_eq_timeSpec (str "123519.00") (by decide)⟩

end AfGps
